import Mathlib

/-!
Verification of the KVM unit-test harness (`kvm/kvm_unittest.py`).

The development shallow-embeds the harness's module-state
capture/configure/restore machinery: Python dictionaries become
insertion-ordered association lists, sysfs parameter files become explicit
data, and the kernel's module loader becomes a small state machine.
External collaborators (the avocado framework lifecycle, `linux_modules`
helpers, modprobe) are modelled from the specification, as marked on each
definition; everything else is translated directly from the source.
-/

set_option autoImplicit false

namespace KvmUnitTest

/-! ## Python string primitives -/

/-- Python `s.rstrip("\n")`: remove every trailing newline character. -/
def rstripNL (s : String) : String :=
  String.mk ((s.data.reverse.dropWhile (fun c => c == '\n')).reverse)

/-- Whether `needle` is a prefix of `hay` (character lists). -/
def prefixOfCh : List Char → List Char → Bool
  | [], _ => true
  | _ :: _, [] => false
  | a :: as, b :: bs => a == b && prefixOfCh as bs

/-- Whether `needle` occurs contiguously inside `hay` (character lists). -/
def infixOfCh : List Char → List Char → Bool
  | needle, [] => needle.isEmpty
  | needle, c :: t => prefixOfCh needle (c :: t) || infixOfCh needle t

/-- Python's substring test `needle in hay`. -/
def pyIn (needle hay : String) : Bool :=
  infixOfCh needle.data hay.data

/-- Accumulator-based whitespace splitter over character lists. -/
def wordsAux : List Char → List Char → List (List Char)
  | [], acc => if acc.isEmpty then [] else [acc.reverse]
  | c :: cs, acc =>
    if c.isWhitespace then
      if acc.isEmpty then wordsAux cs [] else acc.reverse :: wordsAux cs []
    else wordsAux cs (c :: acc)

/-- Python `s.split()` with no argument: split on whitespace runs, dropping
empty pieces. -/
def pySplit (s : String) : List String :=
  (wordsAux s.data []).map String.mk

/-- Python `" ".join(ts)`. -/
def joinSpace : List String → String
  | [] => ""
  | [t] => t
  | t :: u :: ts => t ++ " " ++ joinSpace (u :: ts)

/-! ## Python dictionaries

The harness stores the captured module state in a Python `dict`, which is an
insertion-ordered map with unique keys.  We model it as an association list;
assignment overwrites in place when the key is present and appends otherwise. -/

/-- A Python `dict` of strings, in insertion order. -/
abbrev Dict := List (String × String)

/-- Python `d[k] = v`. -/
def dictInsert : Dict → String → String → Dict
  | [], k, v => [(k, v)]
  | kv :: rest, k, v =>
    if kv.1 == k then (k, v) :: rest else kv :: dictInsert rest k v

/-- Python `d.get(k)`. -/
def dictGet : Dict → String → Option String
  | [], _ => none
  | kv :: rest, k => if kv.1 == k then some kv.2 else dictGet rest k

/-- The captured parameter mapping proper: every entry of the snapshot
dictionary other than the `"__state__"` status tag
(`kvm_unittest.py:387-391`). -/
def nonTagEntries (d : Dict) : Dict :=
  d.filter (fun kv => kv.1 != "__state__")

/-! ## Sysfs data model -/

/-- One directory entry of `/sys/module/<m>/parameters` as the harness
observes it: its name, its text content, whether `os.path.isfile` holds,
whether `os.access(..., R_OK)` holds, and whether reading it raises
`OSError`/`IOError`. -/
structure ParamFile where
  name : String
  value : String
  isFile : Bool
  readable : Bool
  readErr : Bool
deriving DecidableEq, Repr

/-- A sysfs parameter file as seen by a single read attempt: the path may be
absent, the read may fail, or it yields text. -/
inductive SysfsFile where
  | absent
  | readError
  | contents (text : String)
deriving DecidableEq, Repr

/-! ## Leaf functions translated from the source -/

/-- Body of the loop of `capture_module_parameters`
(`kvm_unittest.py:70-80`): regular readable entries are read (with trailing
newlines stripped) into the dictionary, other entries are silently skipped,
and a read error aborts with `TestSkipError`. -/
def readParamFile (d : Dict) (f : ParamFile) : Except String Dict :=
  if f.isFile && f.readable then
    if f.readErr then
      .error ("Failed to read parameter " ++ f.name)
    else
      .ok (dictInsert d f.name (rstripNL f.value))
  else
    .ok d

/-- `capture_module_parameters` (`kvm_unittest.py:56-82`): fails when the
parameters directory is missing, otherwise folds `readParamFile` over the
directory listing starting from the empty dictionary. -/
def capture_module_parameters (dirExists : Bool) (entries : List ParamFile) :
    Except String Dict :=
  if dirExists then
    entries.foldlM readParamFile []
  else
    .error "Sysfs parameters directory not found"

/-- `verify_sysfs_param` (`kvm_unittest.py:85-102`): `false` when the path is
absent; otherwise membership of the newline-trimmed content in the expected
values, with read errors propagated to the caller. -/
def verify_sysfs_param (file : SysfsFile) (expectedValues : List String) :
    Except Unit Bool :=
  match file with
  | .absent => .ok false
  | .readError => .error ()
  | .contents text => .ok (expectedValues.contains (rstripNL text))

/-- Per-test outcome recorded by `KVMUnitTest.test`. -/
inductive Outcome where
  | failed
  | skipped
  | passed
deriving DecidableEq, Repr

/-- Outcome classification of one test's captured output
(`kvm_unittest.py:341-346`): the `if "FAIL" / elif "SKIP" / elif "PASS"`
chain, with no outcome recorded when no marker occurs. -/
def classify (result : String) : Option Outcome :=
  if pyIn "FAIL" result then some .failed
  else if pyIn "SKIP" result then some .skipped
  else if pyIn "PASS" result then some .passed
  else none

/-- Result of `verify_kvm_dmesg`: either the run is cancelled, or it
proceeds with a (possibly reduced) test string, recording whether the
x2apic-removal warning was emitted. -/
inductive VerifyResult where
  | cancel (msg : String)
  | proceed (tests : String) (warned : Bool)
deriving DecidableEq, Repr

/-- `verify_kvm_dmesg` (`kvm_unittest.py:298-320`) over the dmesg diff
outcome and the current space-separated test string. -/
def verify_kvm_dmesg (diffResult : Except String String) (tests : String) :
    VerifyResult :=
  match diffResult with
  | .error e => .cancel ("Dmesg diff failed: " ++ e)
  | .ok diff =>
    if !(pyIn "AVIC enabled" diff) then
      .cancel "AVIC not enabled; cancelling accelerated mode tests."
    else if (pySplit tests).contains "x2apic" && !(pyIn "x2AVIC enabled" diff) then
      let tests2 := joinSpace ((pySplit tests).filter (fun t => t != "x2apic"))
      if tests2 == "" then
        .cancel "x2AVIC not enabled. Cancelling the x2apic test in accelerated mode."
      else
        .proceed tests2 true
    else
      .proceed tests false

/-! ## Kernel / external-collaborator model

The module loader, `lsmod`-based loaded check, and modprobe argument parsing
live in `avocado.utils.linux_modules` and the kernel, outside this
repository; they are modelled from the specification (sections 4.2 and 6). -/

/-- State of the KVM module on the host: unloaded, or loaded with its sysfs
parameters directory (`none` when the directory is absent). -/
inductive KernelState where
  | unloaded
  | loaded (dir : Option (List ParamFile))
deriving DecidableEq, Repr

/-- How the kernel materializes the module's parameters on load: the fixed
set of parameter names and the default value each takes when no load-time
argument supplies it. -/
structure ModuleSpec where
  paramNames : List String
  defaults : String → String

/-- Observable side effects of a run, in order. -/
inductive Action where
  | rmmod (module : String)
  | modprobe (cmd : String)
  | readSysfsDir
  | readSysfsFile
  | dmesgSnapshot
  | warned
  | captured (snap : Dict)
  | restoreCall (snap : Dict)
deriving DecidableEq, Repr

/-- Modelled from the spec: `linux_modules.module_is_loaded`, a pure check of
whether the module is currently loaded. -/
def module_is_loaded (kst : KernelState) : Bool :=
  match kst with
  | .unloaded => false
  | .loaded _ => true

/-- Modelled from the spec: `linux_modules.unload_module`, which removes the
module if it is currently loaded and is a no-op otherwise (spec 4.2:
"idempotent, no-op if already unloaded"). -/
def unload_module (m : String) (kst : KernelState) : KernelState × List Action :=
  match kst with
  | .unloaded => (.unloaded, [])
  | .loaded _ => (.unloaded, [.rmmod m])

/-- Split one `key=value` load-time argument token at its first `=`. -/
def parseKV (tok : String) : String × String :=
  (String.mk (tok.data.takeWhile (fun c => c != '=')),
   String.mk ((tok.data.dropWhile (fun c => c != '=')).drop 1))

/-- First value bound to `n` in a parsed argument list, or the default. -/
def lookupArg (args : List (String × String)) (n : String) (dflt : String) : String :=
  match args.find? (fun kv => kv.1 == n) with
  | some kv => kv.2
  | none => dflt

/-- The sysfs parameter files the kernel exposes after loading the module
with the given parsed arguments: every declared parameter, taking the
supplied value or its default, as a regular readable file. -/
def materialize (ms : ModuleSpec) (args : List (String × String)) : List ParamFile :=
  ms.paramNames.map (fun n =>
    { name := n, value := lookupArg args n (ms.defaults n),
      isFile := true, readable := true, readErr := false })

/-- Modelled from the spec: `linux_modules.load_module` over a command string
"module key=value key=value ..." (spec 6: "a module name plus an optional
space-separated key=value argument string"). -/
def load_module (ms : ModuleSpec) (cmd : String) : KernelState × List Action :=
  let args := ((pySplit cmd).drop 1).map parseKV
  (.loaded (some (materialize ms args)), [.modprobe cmd])

/-- Whether `/sys/module/<m>/parameters` exists in this kernel state. -/
def stateDirExists (kst : KernelState) : Bool :=
  match kst with
  | .loaded (some _) => true
  | _ => false

/-- The entries of `/sys/module/<m>/parameters` in this kernel state. -/
def stateEntries (kst : KernelState) : List ParamFile :=
  match kst with
  | .loaded (some files) => files
  | _ => []

/-- The sysfs file at `/sys/module/<m>/parameters/<p>` in this kernel
state, as one read attempt observes it. -/
def sysfsParamFile (kst : KernelState) (p : String) : SysfsFile :=
  match kst with
  | .unloaded => .absent
  | .loaded none => .absent
  | .loaded (some files) =>
    match files.find? (fun f => f.name == p) with
    | none => .absent
    | some f => if f.readErr then .readError else .contents f.value

/-- Current value of parameter `p` of the loaded module, if any. -/
def paramValue (kst : KernelState) (p : String) : Option String :=
  ((stateEntries kst).find? (fun f => f.name == p)).map (fun f => f.value)

/-! ## Harness steps translated from the source -/

/-- Result of one harness step: normal value, `self.cancel` (a skip), or a
raised exception / `self.fail`. -/
inductive StepResult (α : Type) where
  | ok (val : α)
  | cancel (msg : String)
  | error (msg : String)
deriving DecidableEq, Repr

/-- `KVMUnitTest.capture_kvm_module_state` (`kvm_unittest.py:211-230`): an
unloaded module yields the dictionary `{"__state__": "unloaded"}` with no
sysfs access; a loaded one reads the parameters directory, tags the result
`"loaded"`, and turns a capture failure into a cancellation. -/
def capture_kvm_module_state (kst : KernelState) : StepResult Dict × List Action :=
  if module_is_loaded kst then
    match capture_module_parameters (stateDirExists kst) (stateEntries kst) with
    | .error e => (.cancel e, [.readSysfsDir])
    | .ok d => (.ok (dictInsert d "__state__" "loaded"), [.readSysfsDir])
  else
    (.ok (dictInsert [] "__state__" "unloaded"), [])

/-- Kernel build configuration of the module's config symbol. -/
inductive KConfig where
  | notSet
  | module
  | builtin
deriving DecidableEq, Repr

/-- The external world of one run: everything the harness consumes that is
outside its own code. -/
structure Env where
  mode : Option String
  qemuBinary : Option String
  qemuExists : Bool
  detected : Except String (String × String)
  tests0 : String
  kvmModuleParam : String
  configStatus : KConfig
  mspec : ModuleSpec
  kst0 : KernelState
  builtinParamFile : SysfsFile
  dmesgDiff : Except String String
  buildOk : Bool
  listedTests : String
  testOutput : String → String
  cmdError : Bool

/-- `KVMUnitTest.configure_kvm_module` (`kvm_unittest.py:257-296`): with no
mode, load-if-absent; with an explicit mode, unload if loaded, reload with
the acceleration parameter forced to 1 or 0, verify the value stuck, and in
accelerated mode bracket the reload with dmesg snapshots and run
`verify_kvm_dmesg`. -/
def configure_kvm_module (env : Env) (m : String) (kst : KernelState)
    (tests : String) : StepResult String × KernelState × List Action :=
  match env.mode with
  | none =>
    if module_is_loaded kst then
      (.ok tests, kst, [])
    else
      let l := load_module env.mspec m
      (.ok tests, l.1, l.2)
  | some md =>
    let u := if module_is_loaded kst then unload_module m kst else (kst, [])
    if md == "accelerated" then
      let l := load_module env.mspec (m ++ " " ++ env.kvmModuleParam ++ "=1")
      let acts := u.2 ++ [Action.dmesgSnapshot] ++ l.2 ++
        [Action.dmesgSnapshot, Action.readSysfsFile]
      match verify_sysfs_param (sysfsParamFile l.1 env.kvmModuleParam) ["1", "Y"] with
      | .error _ => (.error "sysfs read failed", l.1, acts)
      | .ok false =>
        (.cancel ("Failed to set " ++ env.kvmModuleParam ++ "=1"), l.1, acts)
      | .ok true =>
        match verify_kvm_dmesg env.dmesgDiff tests with
        | .cancel msg => (.cancel msg, l.1, acts)
        | .proceed tests2 warned =>
          (.ok tests2, l.1, acts ++ if warned then [Action.warned] else [])
    else if md == "non-accelerated" then
      let l := load_module env.mspec (m ++ " " ++ env.kvmModuleParam ++ "=0")
      let acts := u.2 ++ l.2 ++ [Action.readSysfsFile]
      match verify_sysfs_param (sysfsParamFile l.1 env.kvmModuleParam) ["0", "N"] with
      | .error _ => (.error "sysfs read failed", l.1, acts)
      | .ok false =>
        (.cancel ("Failed to set " ++ env.kvmModuleParam ++ "=0"), l.1, acts)
      | .ok true => (.ok tests, l.1, acts)
    else
      (.ok tests, u.1, u.2)

/-- `KVMUnitTest.check_and_configure_kvm_module` (`kvm_unittest.py:232-255`):
cancel when the config symbol is not set; configure when it is a loadable
module; when it is builtin and a mode was requested, only verify the current
parameter value against the mode's expected set, cancelling on mismatch. -/
def check_and_configure (env : Env) (m : String) (kst : KernelState)
    (tests : String) : StepResult String × KernelState × List Action :=
  match env.configStatus with
  | .notSet => (.cancel "config option is not set in the kernel configuration", kst, [])
  | .module => configure_kvm_module env m kst tests
  | .builtin =>
    match env.mode with
    | none => (.ok tests, kst, [])
    | some md =>
      let expected := if md == "accelerated" then ["1", "Y"] else ["0", "N"]
      match verify_sysfs_param env.builtinParamFile expected with
      | .error _ => (.error "sysfs read failed", kst, [.readSysfsFile])
      | .ok false =>
        (.cancel "Cannot modify kvm module parameters since the module is built-in",
         kst, [.readSysfsFile])
      | .ok true => (.ok tests, kst, [.readSysfsFile])

/-- The harness state threaded through one run: detected module name, kernel
state, the captured snapshot (`self.initial_kvm_params`), and the
space-separated test string. -/
structure RunState where
  kvmModule : String
  kst : KernelState
  initialParams : Dict
  tests : String
deriving Repr

/-- `KVMUnitTest.setUp` (`kvm_unittest.py:111-187`): validate the mode,
check the custom QEMU binary, detect the vendor module, capture the module
state, configure it, build the suite, and default the test list. -/
def setUpModel (env : Env) : StepResult Unit × RunState × List Action :=
  let rs0 : RunState :=
    { kvmModule := "", kst := env.kst0, initialParams := [], tests := env.tests0 }
  if !(env.mode == none || env.mode == some "accelerated" ||
       env.mode == some "non-accelerated") then
    (.cancel "Invalid mode", rs0, [])
  else if (match env.qemuBinary with
           | some _ => !env.qemuExists
           | none => false) then
    (.cancel "Custom QEMU binary not found", rs0, [])
  else
    match env.detected with
    | .error e => (.cancel e, rs0, [])
    | .ok (m, _cfg) =>
      let rs1 := { rs0 with kvmModule := m }
      match capture_kvm_module_state env.kst0 with
      | (.cancel e, a1) => (.cancel e, rs1, a1)
      | (.error e, a1) => (.error e, rs1, a1)
      | (.ok snap, a1) =>
        let rs2 := { rs1 with initialParams := snap }
        let a1c := a1 ++ [Action.captured snap]
        match check_and_configure env m env.kst0 env.tests0 with
        | (.cancel e, kst2, a2) => (.cancel e, { rs2 with kst := kst2 }, a1c ++ a2)
        | (.error e, kst2, a2) => (.error e, { rs2 with kst := kst2 }, a1c ++ a2)
        | (.ok tests2, kst2, a2) =>
          let rs3 := { rs2 with kst := kst2, tests := tests2 }
          if env.buildOk then
            let rs4 := if tests2 == "" then { rs3 with tests := env.listedTests } else rs3
            (.ok (), rs4, a1c ++ a2)
          else
            (.error "Failed to build kvm-unit-tests", rs3, a1c ++ a2)

/-- The three outcome lists accumulated by `KVMUnitTest.test`
(`kvm_unittest.py:328-346`), in list order: failed, skipped, passed. -/
def collectOutcomes (env : Env) : List String →
    List String × List String × List String
  | [] => ([], [], [])
  | t :: rest =>
    let (f, s, p) := collectOutcomes env rest
    match classify (env.testOutput t) with
    | some .failed => (t :: f, s, p)
    | some .skipped => (f, t :: s, p)
    | some .passed => (f, s, t :: p)
    | none => (f, s, p)

/-- `KVMUnitTest.test` (`kvm_unittest.py:322-370`): a command-execution
error fails the run; otherwise each requested test's output is classified
and the run fails iff some test was classified failed. -/
def testModel (env : Env) (rs : RunState) : StepResult Unit × List Action :=
  if env.cmdError then
    (.error "Test execution failed", [])
  else
    let (f, _s, _p) := collectOutcomes env (pySplit rs.tests)
    if f.isEmpty then (.ok (), []) else (.error "tests failed", [])

/-- `KVMUnitTest.tearDown` (`kvm_unittest.py:372-394`) past the `hasattr`
guard: on an `"unloaded"` tag, unload; on a `"loaded"` tag, join the non-tag
entries into `key=value` arguments and, when that string is non-empty,
unload and reload the module with them; otherwise do nothing. -/
def tearDownRestore (m : String) (ms : ModuleSpec) (snap : Dict)
    (kst : KernelState) : KernelState × List Action :=
  if dictGet snap "__state__" == some "unloaded" then
    unload_module m kst
  else if dictGet snap "__state__" == some "loaded" then
    let paramArgs := joinSpace ((nonTagEntries snap).map (fun kv => kv.1 ++ "=" ++ kv.2))
    if paramArgs != "" then
      let u := unload_module m kst
      let l := load_module ms (m ++ " " ++ paramArgs)
      (l.1, u.2 ++ l.2)
    else
      (kst, [])
  else
    (kst, [])

/-- The teardown step of a run: the framework invokes `tearDown`, which
(once `init_parameters` has run, as it has on every path of this model)
reaches the restore logic with the stored snapshot. -/
def tearDownModel (env : Env) (rs : RunState) : KernelState × List Action :=
  let r := tearDownRestore rs.kvmModule env.mspec rs.initialParams rs.kst
  (r.1, Action.restoreCall rs.initialParams :: r.2)

/-- Final outcome and observable trace of one whole run. -/
structure RunResult where
  outcome : StepResult Unit
  finalKst : KernelState
  trace : List Action

/-- Modelled from the spec: one complete run under the avocado lifecycle.
The framework's guarantee that `tearDown` executes on every exit path —
normal completion, cancellation during configuration or verification, and
test-execution failure alike — is not code of this repository and is taken
from the spec (4.4: "Restored is always reached ... even when
configuration, verification, or test execution failed"). -/
def fullRun (env : Env) : RunResult :=
  match setUpModel env with
  | (.ok _, rs, a1) =>
    let t := testModel env rs
    let td := tearDownModel env rs
    { outcome := t.1, finalKst := td.1, trace := a1 ++ t.2 ++ td.2 }
  | (.cancel msg, rs, a1) =>
    let td := tearDownModel env rs
    { outcome := .cancel msg, finalKst := td.1, trace := a1 ++ td.2 }
  | (.error msg, rs, a1) =>
    let td := tearDownModel env rs
    { outcome := .error msg, finalKst := td.1, trace := a1 ++ td.2 }

/-! ## Well-formedness predicates and constructions used by the round-trip
claims -/

/-- No whitespace character occurs in `s`. -/
abbrev noWS (s : String) : Prop := ∀ c ∈ s.data, c.isWhitespace = false

/-- No `=` character occurs in `s`. -/
abbrev noEq (s : String) : Prop := ∀ c ∈ s.data, c ≠ '='

/-- A non-empty, whitespace-free command-line token. -/
abbrev validToken (s : String) : Prop := s.data ≠ [] ∧ noWS s

/-- A module-parameter name usable inside a `key=value` token. -/
abbrev validName (s : String) : Prop := validToken s ∧ noEq s

/-- A regular, readable sysfs parameter file that reads cleanly. -/
def goodFile (n v : String) : ParamFile :=
  { name := n, value := v, isFile := true, readable := true, readErr := false }

/-- The kernel state of a loaded module whose declared parameters all read
cleanly with value `v n`. -/
def mkLoaded (ms : ModuleSpec) (v : String → String) : KernelState :=
  .loaded (some (ms.paramNames.map (fun n => goodFile n (v n))))

/-- A module specification whose parameter list contains a parameter
literally named `"__state__"`, colliding with the snapshot's status tag. -/
def cexSpec : ModuleSpec := ⟨["__state__", "npt"], fun _ => "1"⟩

/-- Current values for `cexSpec`: the parameter named `"__state__"`
currently reads `"0"`, the other parameter reads `"1"`. -/
def cexVals : String → String := fun n => if n == "__state__" then "0" else "1"

/-- A concrete healthy environment: no mode requested, module already loaded
with one parameter, build succeeding, one passing test. -/
def envHealthy : Env :=
  { mode := none, qemuBinary := none, qemuExists := true,
    detected := .ok ("kvm_amd", "CONFIG_KVM_AMD"), tests0 := "apic",
    kvmModuleParam := "avic", configStatus := .module,
    mspec := ⟨["avic"], fun _ => "1"⟩,
    kst0 := .loaded (some [goodFile "avic" "1"]),
    builtinParamFile := .absent, dmesgDiff := .ok "",
    buildOk := true, listedTests := "", testOutput := fun _ => "PASS",
    cmdError := false }

/-! ## Dictionary lemmas -/

theorem dictGet_insert_self (d : Dict) (k v : String) :
    dictGet (dictInsert d k v) k = some v := by
  induction d with
  | nil => simp [dictInsert, dictGet]
  | cons kv rest ih =>
    by_cases h : kv.1 = k
    · simp [dictInsert, dictGet, h]
    · simp [dictInsert, dictGet, h, ih]

theorem dictGet_insert_isSome (d : Dict) (k v k2 : String)
    (h : (dictGet d k2).isSome = true) :
    (dictGet (dictInsert d k v) k2).isSome = true := by
  induction d with
  | nil => simp [dictGet] at h
  | cons kv rest ih =>
    by_cases h1 : kv.1 = k
    · subst h1
      by_cases h2 : kv.1 = k2
      · simp [dictInsert, dictGet, h2]
      · simp [dictGet, h2] at h
        simp [dictInsert, dictGet, h2, h]
    · by_cases h2 : kv.1 = k2
      · have h1b : ¬k2 = k := h2 ▸ h1
        simp [dictInsert, dictGet, h1, h1b, h2]
      · simp [dictGet, h2] at h
        simp [dictInsert, dictGet, h1, h2, ih h]

theorem dictGet_eq_none_of_fresh (d : Dict) (k : String)
    (h : ∀ kv ∈ d, kv.1 ≠ k) : dictGet d k = none := by
  induction d with
  | nil => rfl
  | cons kv rest ih =>
    have hk := h kv (by simp)
    simp [dictGet, hk]
    exact ih (fun x hx => h x (by simp [hx]))

theorem dictGet_append_fresh (d d2 : Dict) (k : String)
    (h : ∀ kv ∈ d, kv.1 ≠ k) : dictGet (d ++ d2) k = dictGet d2 k := by
  induction d with
  | nil => rfl
  | cons kv rest ih =>
    have hk := h kv (by simp)
    simp [dictGet, hk]
    exact ih (fun x hx => h x (by simp [hx]))

theorem dictInsert_fresh (d : Dict) (k v : String)
    (h : ∀ kv ∈ d, kv.1 ≠ k) : dictInsert d k v = d ++ [(k, v)] := by
  induction d with
  | nil => rfl
  | cons kv rest ih =>
    have hk := h kv (by simp)
    simp [dictInsert, hk]
    exact ih (fun x hx => h x (by simp [hx]))

theorem dictInsert_append_found (pre post : Dict) (k vOld vNew : String)
    (h : ∀ kv ∈ pre, kv.1 ≠ k) :
    dictInsert (pre ++ (k, vOld) :: post) k vNew = pre ++ (k, vNew) :: post := by
  induction pre with
  | nil => simp [dictInsert]
  | cons kv rest ih =>
    have hk := h kv (by simp)
    simp [dictInsert, hk]
    exact ih (fun x hx => h x (by simp [hx]))

/-! ## Claim C7: verify_sysfs_param contract -/

/-- C7: `verify_sysfs_param` returns false (and never raises) when the path
does not exist; when the path exists and is readable it returns true iff the
file's value with trailing newlines trimmed is a member of the expected set;
and read errors other than absence propagate to the caller. -/
theorem c7_verify_sysfs_param_contract (file : SysfsFile) (expected : List String) :
    (file = .absent → verify_sysfs_param file expected = .ok false) ∧
    (∀ text, file = .contents text →
      (verify_sysfs_param file expected = .ok true ↔ rstripNL text ∈ expected)) ∧
    (file = .readError → verify_sysfs_param file expected = .error ()) := by
  refine ⟨fun h => ?_, fun text h => ?_, fun h => ?_⟩
  · subst h; rfl
  · subst h
    simp [verify_sysfs_param]
  · subst h; rfl

/-- C7 witness: a present readable file containing `"1\n"` verifies against
the expected set containing `"1"`. -/
theorem c7_verify_sysfs_param_contract_witness :
    verify_sysfs_param (SysfsFile.contents "1\n") ["1", "Y"] = .ok true :=
  ((c7_verify_sysfs_param_contract (SysfsFile.contents "1\n") ["1", "Y"]).2.1
    "1\n" rfl).mpr (by decide)

/-! ## Claim C5: outcome classification -/

/-- C5 counterexample: a requested test whose captured output contains none
of the three markers is assigned no outcome at all, contradicting the claim
that every requested test is assigned exactly one outcome from
{passed, failed, skipped}. -/
theorem c5_counterexample : classify "timeout waiting for qemu" = none := by
  rfl

/-- C5 (amended): a test whose captured output contains at least one of the
literal markers is assigned exactly one outcome by checking FAIL, then SKIP,
then PASS, while an output containing none of the markers yields no outcome. -/
theorem c5_outcome_precedence (r : String) :
    (pyIn "FAIL" r = true → classify r = some .failed) ∧
    (pyIn "FAIL" r = false → pyIn "SKIP" r = true → classify r = some .skipped) ∧
    (pyIn "FAIL" r = false → pyIn "SKIP" r = false → pyIn "PASS" r = true →
      classify r = some .passed) ∧
    (pyIn "FAIL" r = false → pyIn "SKIP" r = false → pyIn "PASS" r = false →
      classify r = none) := by
  refine ⟨fun h1 => ?_, fun h1 h2 => ?_, fun h1 h2 h3 => ?_, fun h1 h2 h3 => ?_⟩ <;>
    simp [classify, h1]
  · simp [h2]
  · simp [h2, h3]
  · simp [h2, h3]

/-- C5 witness: an output containing all three markers is classified failed,
the first marker in checking order. -/
theorem c5_outcome_precedence_witness :
    classify "PASS then SKIP then FAIL" = some Outcome.failed :=
  (c5_outcome_precedence "PASS then SKIP then FAIL").1 (by decide)

/-! ## Claim C4: x2apic gating on the dmesg delta -/

/-- C4: in accelerated mode, when the dmesg delta contains "AVIC enabled"
but not "x2AVIC enabled": a requested test set of exactly x2apic cancels the
run, while {x2apic, other} (in either order) proceeds with only "other",
emitting the warning rather than cancelling. -/
theorem c4_x2apic_gating (diff : String)
    (h1 : pyIn "AVIC enabled" diff = true)
    (h2 : pyIn "x2AVIC enabled" diff = false) :
    (∃ msg, verify_kvm_dmesg (.ok diff) "x2apic" = .cancel msg) ∧
    verify_kvm_dmesg (.ok diff) "x2apic other" = .proceed "other" true ∧
    verify_kvm_dmesg (.ok diff) "other x2apic" = .proceed "other" true := by
  refine ⟨⟨"x2AVIC not enabled. Cancelling the x2apic test in accelerated mode.", ?_⟩, ?_, ?_⟩ <;>
    simp [verify_kvm_dmesg, h1, h2] <;> rfl

/-- C4 witness: the delta `"AVIC enabled"` itself contains the first marker
and not the second. -/
theorem c4_x2apic_gating_witness :
    verify_kvm_dmesg (.ok "AVIC enabled") "x2apic other" = .proceed "other" true :=
  (c4_x2apic_gating "AVIC enabled" (by decide) (by decide)).2.1

/-! ## Claim C3: restore of a loaded-tag snapshot with empty parameter map -/

/-- C3 counterexample: on the snapshot tagged loaded with an empty parameter
map, restore performs no unload and no reload at all (empty action trace,
kernel state untouched), contradicting the claim that it unloads the module
and reloads it with no load-time arguments. -/
theorem c3_counterexample :
    tearDownRestore "kvm_amd" ⟨["avic"], fun _ => "0"⟩ [("__state__", "loaded")]
      (KernelState.loaded (some [⟨"avic", "1", true, true, false⟩])) =
    (KernelState.loaded (some [⟨"avic", "1", true, true, false⟩]), []) := by
  rfl

/-- C3 (amended): for every snapshot tagged loaded whose captured parameter
map is empty, restore is a no-op: it neither unloads nor reloads the module,
leaving any kernel state unchanged with no observable action. -/
theorem c3_loaded_empty_restore_noop (m : String) (ms : ModuleSpec) (snap : Dict)
    (kst : KernelState)
    (htag : dictGet snap "__state__" = some "loaded")
    (hempty : nonTagEntries snap = []) :
    tearDownRestore m ms snap kst = (kst, []) := by
  simp [tearDownRestore, htag, hempty, joinSpace]

/-- C3 witness: the singleton loaded-tag snapshot on an unloaded host. -/
theorem c3_loaded_empty_restore_noop_witness :
    tearDownRestore "kvm_amd" ⟨[], fun _ => ""⟩ [("__state__", "loaded")]
      KernelState.unloaded = (KernelState.unloaded, []) :=
  c3_loaded_empty_restore_noop "kvm_amd" ⟨[], fun _ => ""⟩ [("__state__", "loaded")]
    KernelState.unloaded (by rfl) (by rfl)

/-! ## Claim C6: capture and restore of an unloaded module -/

/-- C6: capturing an unloaded module yields the snapshot tagged unloaded
with an empty parameter map and an empty action trace (so no sysfs read is
attempted), and restoring that snapshot on a host where the module is
already unloaded is a no-op (state unchanged, no action). -/
theorem c6_unloaded_capture_restore (m : String) (ms : ModuleSpec) :
    capture_kvm_module_state KernelState.unloaded =
      (.ok [("__state__", "unloaded")], []) ∧
    nonTagEntries [("__state__", "unloaded")] = [] ∧
    tearDownRestore m ms [("__state__", "unloaded")] KernelState.unloaded =
      (KernelState.unloaded, []) := by
  refine ⟨rfl, rfl, ?_⟩
  rfl

/-! ## Claim C9: capture invariant -/

theorem capture_fold_keys :
    ∀ (entries : List ParamFile) (d d2 : Dict),
      entries.foldlM readParamFile d = .ok d2 →
      ((∀ k, (dictGet d k).isSome = true → (dictGet d2 k).isSome = true) ∧
       (∀ f ∈ entries, f.isFile = true → f.readable = true →
         (dictGet d2 f.name).isSome = true)) := by
  intro entries
  induction entries with
  | nil =>
    intro d d2 h
    simp [List.foldlM, pure, Except.pure] at h
    subst h
    exact ⟨fun k hk => hk, by simp⟩
  | cons f fs ih =>
    intro d d2 h
    simp only [List.foldlM] at h
    rcases hstep : readParamFile d f with e | d1
    · rw [hstep] at h
      simp [Bind.bind, Except.bind] at h
    · rw [hstep] at h
      simp only [Bind.bind, Except.bind] at h
      obtain ⟨pres, mem⟩ := ih d1 d2 h
      by_cases hfr : (f.isFile && f.readable) = true
      · cases hre : f.readErr with
        | true => simp [readParamFile, hfr, hre] at hstep
        | false => ?_
        have hd1 : d1 = dictInsert d f.name (rstripNL f.value) := by
          simp [readParamFile, hfr, hre] at hstep
          exact hstep.symm
        constructor
        · intro k hk
          exact pres k (by rw [hd1]; exact dictGet_insert_isSome d f.name _ k hk)
        · intro g hg hgf hgr
          rcases List.mem_cons.mp hg with hgf2 | hg2
          · subst hgf2
            apply pres
            rw [hd1]
            simp [dictGet_insert_self]
          · exact mem g hg2 hgf hgr
      · have hd1 : d1 = d := by
          simp [readParamFile, hfr] at hstep
          exact hstep.symm
        constructor
        · intro k hk
          exact pres k (hd1 ▸ hk)
        · intro g hg hgf hgr
          rcases List.mem_cons.mp hg with hgf2 | hg2
          · subst hgf2
            exact absurd (by simp [hgf, hgr]) hfr
          · exact mem g hg2 hgf hgr

/-- C9: every snapshot produced by capture satisfies the invariant: an
unloaded tag comes with an empty parameter mapping, and a snapshot taken of
a loaded module contains an entry for every regular, readable parameter file
present in the module's sysfs parameters directory at snapshot time. -/
theorem c9_capture_invariant (kst : KernelState) (snap : Dict) (tr : List Action)
    (h : capture_kvm_module_state kst = (.ok snap, tr)) :
    (dictGet snap "__state__" = some "unloaded" → nonTagEntries snap = []) ∧
    (∀ files, kst = KernelState.loaded (some files) →
      dictGet snap "__state__" = some "loaded" ∧
      ∀ f ∈ files, f.isFile = true → f.readable = true →
        (dictGet snap f.name).isSome = true) := by
  cases kst with
  | unloaded =>
    simp [capture_kvm_module_state, module_is_loaded, dictInsert] at h
    obtain ⟨hsnap, _⟩ := h
    subst hsnap
    exact ⟨fun _ => rfl, fun files heq => by cases heq⟩
  | loaded dir =>
    cases dir with
    | none =>
      simp [capture_kvm_module_state, module_is_loaded, stateDirExists, stateEntries,
        capture_module_parameters] at h
    | some files =>
      simp only [capture_kvm_module_state, module_is_loaded, stateDirExists,
        stateEntries, if_true] at h
      rcases hcap : capture_module_parameters true files with e | d
      · rw [hcap] at h
        simp at h
      · rw [hcap] at h
        simp at h
        obtain ⟨hsnap, _⟩ := h
        have htagval : dictGet snap "__state__" = some "loaded" := by
          rw [← hsnap]
          exact dictGet_insert_self d "__state__" "loaded"
        constructor
        · intro htag
          rw [htagval] at htag
          simp at htag
        · intro files2 heq
          have hfe : files = files2 := Option.some.inj (KernelState.loaded.inj heq)
          subst hfe
          refine ⟨htagval, ?_⟩
          intro f hf hif hr
          have hfold : files.foldlM readParamFile [] = .ok d := by
            simpa [capture_module_parameters] using hcap
          have := (capture_fold_keys files [] d hfold).2 f hf hif hr
          rw [← hsnap]
          exact dictGet_insert_isSome d "__state__" "loaded" f.name this

/-- C9 witness: a loaded module with one readable parameter `avic` and one
unreadable entry `debug` yields a snapshot containing the `avic` key. -/
theorem c9_capture_invariant_witness :
    (dictGet [("avic", "1"), ("__state__", "loaded")] "avic").isSome = true :=
  ((c9_capture_invariant
      (KernelState.loaded (some [⟨"avic", "1\n", true, true, false⟩,
        ⟨"debug", "x", true, false, false⟩]))
      [("avic", "1"), ("__state__", "loaded")] [.readSysfsDir] (by rfl)).2
    [⟨"avic", "1\n", true, true, false⟩, ⟨"debug", "x", true, false, false⟩] rfl).2
    ⟨"avic", "1\n", true, true, false⟩ (by decide) rfl rfl

/-! ## Claim C8: builtin module with mismatched parameter -/

/-- C8: when the kernel config status is builtin and the requested mode is
accelerated, a current parameter value outside {"1","Y"} makes the
controller cancel the run, leaving the kernel state unchanged and performing
no module load, unload, or parameter modification: the only action taken is
the single sysfs read used for the check. -/
theorem c8_builtin_mismatch_frame (env : Env) (m : String) (kst : KernelState)
    (tests v : String)
    (hcfg : env.configStatus = .builtin)
    (hmode : env.mode = some "accelerated")
    (hfile : env.builtinParamFile = .contents v)
    (hv1 : rstripNL v ≠ "1") (hv2 : rstripNL v ≠ "Y") :
    ∃ msg, check_and_configure env m kst tests =
      (.cancel msg, kst, [Action.readSysfsFile]) := by
  refine ⟨"Cannot modify kvm module parameters since the module is built-in", ?_⟩
  simp [check_and_configure, hcfg, hmode, hfile, verify_sysfs_param, hv1, hv2]

/-- C8 witness: a builtin module whose acceleration parameter reads `0`. -/
theorem c8_builtin_mismatch_frame_witness :
    ∃ msg, check_and_configure
      { mode := some "accelerated", qemuBinary := none, qemuExists := true,
        detected := .ok ("kvm_amd", "CONFIG_KVM_AMD"), tests0 := "apic",
        kvmModuleParam := "avic", configStatus := .builtin,
        mspec := ⟨["avic"], fun _ => "1"⟩, kst0 := .unloaded,
        builtinParamFile := .contents "0\n", dmesgDiff := .ok "",
        buildOk := true, listedTests := "", testOutput := fun _ => "PASS",
        cmdError := false }
      "kvm_amd" KernelState.unloaded "apic" =
      (.cancel msg, KernelState.unloaded, [Action.readSysfsFile]) :=
  c8_builtin_mismatch_frame _ "kvm_amd" KernelState.unloaded "apic" "0\n"
    rfl rfl rfl (by decide) (by decide)

/-! ## String splitting and joining lemmas -/

theorem strData_append (a b : String) : (a ++ b).data = a.data ++ b.data := rfl

theorem strMk_data : ∀ s : String, String.mk s.data = s
  | ⟨_⟩ => rfl

theorem space_data : " ".data = [' '] := rfl

theorem eqsign_data : "=".data = ['='] := rfl

theorem data_append_space (t r : String) :
    (t ++ " " ++ r).data = t.data ++ ' ' :: r.data := by
  simp [strData_append, space_data]

theorem data_append_eqsign (n v : String) :
    (n ++ "=" ++ v).data = n.data ++ '=' :: v.data := by
  simp [strData_append, eqsign_data]

theorem wordsAux_append_sep (rest : List Char) :
    ∀ (w acc : List Char), (∀ c ∈ w, c.isWhitespace = false) → w ≠ [] →
      wordsAux (w ++ ' ' :: rest) acc = (acc.reverse ++ w) :: wordsAux rest [] := by
  intro w
  induction w with
  | nil => intro acc _ hne; exact absurd rfl hne
  | cons c w2 ih =>
    intro acc hnws _
    have hc : c.isWhitespace = false := hnws c (by simp)
    have step : wordsAux ((c :: w2) ++ ' ' :: rest) acc
        = wordsAux (w2 ++ ' ' :: rest) (c :: acc) := by
      simp [wordsAux, hc]
    rw [step]
    rcases eq_or_ne w2 [] with h0 | h0
    · subst h0
      have hsp : (' ' : Char).isWhitespace = true := by decide
      simp [wordsAux, hsp]
    · rw [ih (c :: acc) (fun x hx => hnws x (by simp [hx])) h0]
      simp

theorem wordsAux_word_only :
    ∀ (w acc : List Char), (∀ c ∈ w, c.isWhitespace = false) →
      acc.reverse ++ w ≠ [] →
      wordsAux w acc = [acc.reverse ++ w] := by
  intro w
  induction w with
  | nil =>
    intro acc _ hne
    have hacc : acc ≠ [] := by
      intro h0
      subst h0
      exact hne rfl
    simp [wordsAux, hacc]
  | cons c w2 ih =>
    intro acc hnws _
    have hc : c.isWhitespace = false := hnws c (by simp)
    have step : wordsAux (c :: w2) acc = wordsAux w2 (c :: acc) := by
      simp [wordsAux, hc]
    rw [step, ih (c :: acc) (fun x hx => hnws x (by simp [hx])) (by simp)]
    simp

theorem pySplit_joinSpace :
    ∀ ts : List String, (∀ t ∈ ts, validToken t) → pySplit (joinSpace ts) = ts := by
  intro ts
  induction ts with
  | nil => intro; rfl
  | cons t ts2 ih =>
    intro hv
    obtain ⟨hne, hnws⟩ := hv t (by simp)
    cases ts2 with
    | nil =>
      show (wordsAux (joinSpace [t]).data []).map String.mk = [t]
      have : joinSpace [t] = t := rfl
      rw [this, wordsAux_word_only t.data [] hnws (by simpa using hne)]
      simp [strMk_data]
    | cons u ts3 =>
      show (wordsAux (joinSpace (t :: u :: ts3)).data []).map String.mk = t :: u :: ts3
      have hdata : (joinSpace (t :: u :: ts3)).data
          = t.data ++ ' ' :: (joinSpace (u :: ts3)).data := by
        show (t ++ " " ++ joinSpace (u :: ts3)).data = _
        exact data_append_space t (joinSpace (u :: ts3))
      rw [hdata, wordsAux_append_sep _ t.data [] hnws hne]
      have ihu := ih (fun x hx => hv x (by simp [hx]))
      simp only [List.map_cons, List.reverse_nil, List.nil_append, strMk_data]
      rw [show (wordsAux (joinSpace (u :: ts3)).data []).map String.mk
            = pySplit (joinSpace (u :: ts3)) from rfl, ihu]

theorem joinSpace_ne_empty (t : String) (ts : List String) (h : t.data ≠ []) :
    joinSpace (t :: ts) ≠ "" := by
  cases ts with
  | nil =>
    intro hcontra
    rw [show joinSpace [t] = t from rfl] at hcontra
    exact h (by rw [hcontra])
  | cons u ts2 =>
    intro hcontra
    have hd : (t ++ " " ++ joinSpace (u :: ts2)).data = [] := by
      rw [show t ++ " " ++ joinSpace (u :: ts2) = joinSpace (t :: u :: ts2) from rfl,
        hcontra]
    rw [data_append_space] at hd
    simp at hd

theorem takeWhile_append_stop {α : Type} (p : α → Bool) :
    ∀ (l : List α) (x : α) (r : List α), (∀ a ∈ l, p a = true) → p x = false →
      (l ++ x :: r).takeWhile p = l ∧ (l ++ x :: r).dropWhile p = x :: r := by
  intro l
  induction l with
  | nil =>
    intro x r _ hx
    simp [List.takeWhile, List.dropWhile, hx]
  | cons a l2 ih =>
    intro x r hl hx
    have ha := hl a (by simp)
    have ihr := ih x r (fun b hb => hl b (by simp [hb])) hx
    simp [List.takeWhile, List.dropWhile, ha, ihr.1, ihr.2]

theorem parseKV_roundtrip (n v : String) (hn : noEq n) :
    parseKV (n ++ "=" ++ v) = (n, v) := by
  unfold parseKV
  rw [data_append_eqsign]
  have h := takeWhile_append_stop (fun c => c != '=') n.data '=' v.data
    (fun a ha => by simpa using hn a ha) (by decide)
  rw [h.1, h.2]
  simp [strMk_data]

/-! ## Capture and restore lemmas for well-formed modules -/

theorem dropWhile_of_all_false {α : Type} (p : α → Bool) (l : List α)
    (h : ∀ c ∈ l, p c = false) : l.dropWhile p = l := by
  cases l with
  | nil => rfl
  | cons a l2 => simp [List.dropWhile, h a (by simp)]

theorem rstripNL_noWS (s : String) (h : noWS s) : rstripNL s = s := by
  unfold rstripNL
  have hall : ∀ c ∈ s.data.reverse, (c == '\n') = false := by
    intro c hc
    have h1 := h c (List.mem_reverse.mp hc)
    have h2 : c ≠ '\n' := by
      intro he
      subst he
      exact absurd h1 (by decide)
    simp [h2]
  rw [dropWhile_of_all_false _ _ hall]
  simp [strMk_data]

theorem fold_good_files (v : String → String) :
    ∀ (names : List String) (d : Dict),
      (names.map (fun n => goodFile n (v n))).foldlM readParamFile d =
        .ok (names.foldl (fun d2 n => dictInsert d2 n (rstripNL (v n))) d) := by
  intro names
  induction names with
  | nil => intro d; rfl
  | cons n ns ih =>
    intro d
    have hstep : readParamFile d (goodFile n (v n))
        = .ok (dictInsert d n (rstripNL (v n))) := rfl
    simp only [List.map_cons, List.foldlM, hstep, Bind.bind, Except.bind,
      List.foldl_cons]
    exact ih _

theorem foldl_insert_map (w : String → String) :
    ∀ (names : List String) (d : Dict), names.Nodup →
      (∀ n ∈ names, ∀ kv ∈ d, kv.1 ≠ n) →
      names.foldl (fun d2 n => dictInsert d2 n (w n)) d =
        d ++ names.map (fun n => (n, w n)) := by
  intro names
  induction names with
  | nil => intro d _ _; simp
  | cons n ns ih =>
    intro d hnd hfresh
    have hfr : ∀ kv ∈ d, kv.1 ≠ n := hfresh n (by simp)
    rw [List.foldl_cons, dictInsert_fresh d n (w n) hfr,
      ih (d ++ [(n, w n)]) (List.nodup_cons.mp hnd).2 ?_]
    · simp
    · intro x hx kv hkv
      rcases List.mem_append.mp hkv with h1 | h2
      · exact hfresh x (by simp [hx]) kv h1
      · simp at h2
        subst h2
        intro hcontra
        have hnx : n = x := hcontra
        exact (List.nodup_cons.mp hnd).1 (hnx ▸ hx)

theorem lookupArg_map_self (v : String → String) :
    ∀ (names : List String) (n dflt : String), n ∈ names →
      lookupArg (names.map (fun x => (x, v x))) n dflt = v n := by
  intro names
  induction names with
  | nil => intro n dflt hn; simp at hn
  | cons x ns ih =>
    intro n dflt hn
    by_cases hx : x = n
    · subst hx
      simp [lookupArg, List.find?]
    · have hmem : n ∈ ns := by
        rcases List.mem_cons.mp hn with h1 | h2
        · exact absurd h1.symm hx
        · exact h2
      have hbe : (x == n) = false := by simp [hx]
      simp only [lookupArg, List.map_cons, List.find?, hbe]
      exact ih n dflt hmem

theorem lookupArg_fresh (args : List (String × String)) (k d : String)
    (h : ∀ kv ∈ args, kv.1 ≠ k) : lookupArg args k d = d := by
  induction args with
  | nil => rfl
  | cons kv rest ih =>
    have hk : (kv.1 == k) = false := by simp [h kv (by simp)]
    simp only [lookupArg, List.find?, hk]
    exact ih (fun x hx => h x (by simp [hx]))

theorem find_goodFile_map (g : String → String) :
    ∀ (names : List String) (p : String), p ∈ names →
      (names.map (fun n => goodFile n (g n))).find? (fun f => f.name == p) =
        some (goodFile p (g p)) := by
  intro names
  induction names with
  | nil => intro p hp; simp at hp
  | cons x ns ih =>
    intro p hp
    by_cases hx : x = p
    · subst hx
      simp [List.find?, goodFile]
    · have hbe : ((goodFile x (g x)).name == p) = false := by simp [goodFile, hx]
      have hmem : p ∈ ns := by
        rcases List.mem_cons.mp hp with h1 | h2
        · exact absurd h1.symm hx
        · exact h2
      simp only [List.map_cons, List.find?, hbe]
      exact ih p hmem

theorem filter_keeps_of_ne_tag (d : Dict) (h : ∀ kv ∈ d, kv.1 ≠ "__state__") :
    d.filter (fun kv => kv.1 != "__state__") = d := by
  induction d with
  | nil => rfl
  | cons kv rest ih =>
    have hk : (kv.1 != "__state__") = true := by simp [h kv (by simp)]
    simp only [List.filter, hk]
    rw [ih (fun x hx => h x (by simp [hx]))]

theorem nonTag_middle (pre post : Dict) (val : String)
    (hpre : ∀ kv ∈ pre, kv.1 ≠ "__state__")
    (hpost : ∀ kv ∈ post, kv.1 ≠ "__state__") :
    nonTagEntries (pre ++ ("__state__", val) :: post) = pre ++ post := by
  unfold nonTagEntries
  rw [List.filter_append]
  rw [filter_keeps_of_ne_tag pre hpre]
  have : (("__state__", val) :: post).filter (fun kv => kv.1 != "__state__") = post := by
    simp only [List.filter]
    rw [show (("__state__", val).1 != "__state__") = false by simp]
    exact filter_keeps_of_ne_tag post hpost
  rw [this]

/-- Capturing a loaded module whose parameters all read cleanly and contain
no whitespace yields the parameter dictionary with the status tag inserted. -/
theorem capture_mkLoaded (ms : ModuleSpec) (v : String → String)
    (hnd : ms.paramNames.Nodup)
    (hv : ∀ n ∈ ms.paramNames, noWS (v n)) :
    capture_kvm_module_state (mkLoaded ms v) =
      (.ok (dictInsert (ms.paramNames.map (fun n => (n, v n))) "__state__" "loaded"),
       [.readSysfsDir]) := by
  have hcap : capture_module_parameters (stateDirExists (mkLoaded ms v))
      (stateEntries (mkLoaded ms v)) =
      .ok (ms.paramNames.map (fun n => (n, v n))) := by
    show capture_module_parameters true (ms.paramNames.map (fun n => goodFile n (v n)))
      = _
    unfold capture_module_parameters
    rw [if_pos rfl, fold_good_files v ms.paramNames [],
      foldl_insert_map _ ms.paramNames [] hnd (by simp)]
    congr 1
    simp only [List.nil_append]
    apply List.map_congr_left
    intro n hn
    rw [rstripNL_noWS (v n) (hv n hn)]
  show (match capture_module_parameters (stateDirExists (mkLoaded ms v))
      (stateEntries (mkLoaded ms v)) with
    | .error e => (StepResult.cancel e, [Action.readSysfsDir])
    | .ok d => (StepResult.ok (dictInsert d "__state__" "loaded"), [Action.readSysfsDir]))
    = _
  rw [hcap]

/-- Restoring a loaded-tag snapshot with a non-empty, well-formed parameter
mapping reloads the module with exactly those parameters as load-time
arguments. -/
theorem tearDownRestore_loaded (m : String) (ms : ModuleSpec) (snap ents : Dict)
    (kst : KernelState)
    (htag : dictGet snap "__state__" = some "loaded")
    (hents : nonTagEntries snap = ents)
    (hne : ents ≠ [])
    (hm : validToken m)
    (hkeys : ∀ kv ∈ ents, validName kv.1)
    (hvals : ∀ kv ∈ ents, noWS kv.2) :
    (tearDownRestore m ms snap kst).1 = .loaded (some (materialize ms ents)) := by
  have htok : ∀ kv ∈ ents, validToken (kv.1 ++ "=" ++ kv.2) := by
    intro kv hkv
    obtain ⟨⟨hne1, hnws1⟩, _⟩ := hkeys kv hkv
    have hnws2 := hvals kv hkv
    constructor
    · rw [data_append_eqsign]
      simp
    · intro c hc
      rw [data_append_eqsign] at hc
      rcases List.mem_append.mp hc with h1 | h2
      · exact hnws1 c h1
      · rcases List.mem_cons.mp h2 with h3 | h4
        · subst h3; decide
        · exact hnws2 c h4
  obtain ⟨kv0, rest, hrw⟩ : ∃ kv0 rest, ents = kv0 :: rest := by
    cases ents with
    | nil => exact absurd rfl hne
    | cons a l => exact ⟨a, l, rfl⟩
  have hargs : joinSpace (ents.map (fun kv => kv.1 ++ "=" ++ kv.2)) ≠ "" := by
    rw [hrw, List.map_cons]
    apply joinSpace_ne_empty
    rw [data_append_eqsign]
    simp
  unfold tearDownRestore
  rw [htag]
  rw [show ((some "loaded" == some "unloaded") = false) from rfl]
  simp only [Bool.false_eq_true, if_false, hents]
  rw [show ((some "loaded" == some "loaded") = true) from rfl]
  simp only [if_true]
  rw [if_pos (by simpa using hargs)]
  simp only [load_module]
  congr 1
  have hsplit : pySplit (m ++ " " ++ joinSpace (ents.map (fun kv => kv.1 ++ "=" ++ kv.2)))
      = m :: ents.map (fun kv => kv.1 ++ "=" ++ kv.2) := by
    rw [show m ++ " " ++ joinSpace (ents.map (fun kv => kv.1 ++ "=" ++ kv.2))
        = joinSpace (m :: ents.map (fun kv => kv.1 ++ "=" ++ kv.2)) by
      rw [hrw, List.map_cons]
      rfl]
    apply pySplit_joinSpace
    intro t ht
    rcases List.mem_cons.mp ht with h1 | h2
    · subst h1; exact hm
    · obtain ⟨kv, hkv, hkveq⟩ := List.mem_map.mp h2
      subst hkveq
      exact htok kv hkv
  rw [hsplit]
  simp only [List.drop_succ_cons, List.drop_zero, List.map_map]
  congr 1
  have : ∀ kv ∈ ents, (parseKV ∘ fun kv => kv.1 ++ "=" ++ kv.2) kv = id kv := by
    intro kv hkv
    show parseKV (kv.1 ++ "=" ++ kv.2) = kv
    rw [parseKV_roundtrip kv.1 kv.2 (hkeys kv hkv).2]
  rw [List.map_congr_left this, List.map_id]

/-- Restoring a loaded-tag snapshot whose parameter mapping is empty leaves
the kernel untouched: the joined argument string is empty, so the guarded
unload/reload pair is skipped. -/
theorem tearDownRestore_loaded_empty (m : String) (ms : ModuleSpec) (snap : Dict)
    (kst : KernelState)
    (htag : dictGet snap "__state__" = some "loaded")
    (hempty : nonTagEntries snap = []) :
    tearDownRestore m ms snap kst = (kst, []) := by
  simp [tearDownRestore, htag, hempty, joinSpace]

/-! ## Claim C2: capture-then-restore round trip -/

/-- C2 counterexample: a loaded module exposing a parameter literally named
`"__state__"` with current value `"0"` does not survive the round trip:
capture stores the tag over the parameter, restore omits it from the reload
arguments, and the parameter comes back at its default `"1"`. -/
theorem c2_counterexample :
    (capture_kvm_module_state (mkLoaded cexSpec cexVals)).1 =
      .ok [("__state__", "loaded"), ("npt", "1")] ∧
    paramValue (mkLoaded cexSpec cexVals) "__state__" = some "0" ∧
    paramValue (tearDownRestore "kvm_amd" cexSpec
        [("__state__", "loaded"), ("npt", "1")] (mkLoaded cexSpec cexVals)).1
        "__state__" = some "1" ∧
    (tearDownRestore "kvm_amd" cexSpec [("__state__", "loaded"), ("npt", "1")]
        (mkLoaded cexSpec cexVals)).1 ≠ mkLoaded cexSpec cexVals := by
  refine ⟨rfl, rfl, rfl, by decide⟩

/-- C2 (amended): for every module loaded with parameter set `P` such that no
parameter is literally named `"__state__"` and all names and values are
whitespace-free tokens (names additionally free of `=`), capture followed
immediately by restore leaves the module loaded with exactly `P`. -/
theorem c2_capture_restore_roundtrip (m : String) (ms : ModuleSpec)
    (v : String → String)
    (hm : validToken m)
    (hnd : ms.paramNames.Nodup)
    (htag : "__state__" ∉ ms.paramNames)
    (hn : ∀ n ∈ ms.paramNames, validName n)
    (hv : ∀ n ∈ ms.paramNames, noWS (v n)) :
    ∃ snap tr, capture_kvm_module_state (mkLoaded ms v) = (.ok snap, tr) ∧
      (tearDownRestore m ms snap (mkLoaded ms v)).1 = mkLoaded ms v := by
  have hfreshtag : ∀ kv ∈ ms.paramNames.map (fun n => (n, v n)),
      kv.1 ≠ "__state__" := by
    intro kv hkv
    obtain ⟨n, hn2, hkveq⟩ := List.mem_map.mp hkv
    subst hkveq
    intro hcontra
    exact htag ((show n = "__state__" from hcontra) ▸ hn2)
  have hsnap : dictInsert (ms.paramNames.map (fun n => (n, v n))) "__state__" "loaded"
      = ms.paramNames.map (fun n => (n, v n)) ++ [("__state__", "loaded")] :=
    dictInsert_fresh _ _ _ hfreshtag
  refine ⟨_, _, capture_mkLoaded ms v hnd hv, ?_⟩
  rw [hsnap]
  have htagget : dictGet
      (ms.paramNames.map (fun n => (n, v n)) ++ [("__state__", "loaded")])
      "__state__" = some "loaded" := by
    rw [dictGet_append_fresh _ _ _ hfreshtag]
    rfl
  have hnte : nonTagEntries
      (ms.paramNames.map (fun n => (n, v n)) ++ [("__state__", "loaded")])
      = ms.paramNames.map (fun n => (n, v n)) := by
    have h := nonTag_middle (ms.paramNames.map (fun n => (n, v n))) [] "loaded"
      hfreshtag (by simp)
    simpa using h
  rcases eq_or_ne ms.paramNames [] with hnil | hnonempty
  · rw [show ms.paramNames.map (fun n => (n, v n)) = [] from by
      rw [hnil]; exact List.map_nil]
    rw [List.nil_append]
    rw [tearDownRestore_loaded_empty m ms [("__state__", "loaded")]
      (mkLoaded ms v) rfl rfl]
  · have hne2 : ms.paramNames.map (fun n => (n, v n)) ≠ [] := by
      intro hcontra
      rcases hp : ms.paramNames with _ | ⟨a, l⟩
      · exact hnonempty hp
      · rw [hp] at hcontra
        simp at hcontra
    rw [tearDownRestore_loaded m ms _ _ (mkLoaded ms v) htagget hnte hne2 hm
      ?keys ?vals]
    case keys =>
      intro kv hkv
      obtain ⟨n, hn2, hkveq⟩ := List.mem_map.mp hkv
      subst hkveq
      exact hn n hn2
    case vals =>
      intro kv hkv
      obtain ⟨n, hn2, hkveq⟩ := List.mem_map.mp hkv
      subst hkveq
      exact hv n hn2
    show KernelState.loaded
      (some (materialize ms (ms.paramNames.map (fun n => (n, v n))))) = mkLoaded ms v
    unfold materialize mkLoaded
    congr 1
    congr 1
    apply List.map_congr_left
    intro n hn2
    rw [lookupArg_map_self v ms.paramNames n (ms.defaults n) hn2]
    rfl

/-- C2 witness: a loaded module with the single parameter `avic = "1"` and
default `"0"` round-trips to exactly the same state. -/
theorem c2_capture_restore_roundtrip_witness :
    ∃ snap tr,
      capture_kvm_module_state (mkLoaded ⟨["avic"], fun _ => "0"⟩ (fun _ => "1")) =
        (.ok snap, tr) ∧
      (tearDownRestore "kvm_amd" ⟨["avic"], fun _ => "0"⟩ snap
          (mkLoaded ⟨["avic"], fun _ => "0"⟩ (fun _ => "1"))).1 =
        mkLoaded ⟨["avic"], fun _ => "0"⟩ (fun _ => "1") :=
  c2_capture_restore_roundtrip "kvm_amd" ⟨["avic"], fun _ => "0"⟩ (fun _ => "1")
    (by decide) (by decide) (by decide) (by decide) (by decide)

/-! ## Claim C10: collision with a real parameter named "__state__" -/

/-- C10: a loaded module exposing a real sysfs parameter literally named
`"__state__"` (alongside at least one other parameter) has its captured
value overwritten by the status tag, the restore argument list never
contains that parameter, and after restoration the parameter sits at its
load-time default; whenever that default differs from the original value,
the original value is lost. -/
theorem c10_state_tag_collision (m : String) (ms : ModuleSpec) (v : String → String)
    (n0 : String)
    (hm : validToken m)
    (hnd : ms.paramNames.Nodup)
    (htag : "__state__" ∈ ms.paramNames)
    (hn0 : n0 ∈ ms.paramNames) (hn0ne : n0 ≠ "__state__")
    (hn : ∀ n ∈ ms.paramNames, validName n)
    (hv : ∀ n ∈ ms.paramNames, noWS (v n)) :
    ∃ snap tr, capture_kvm_module_state (mkLoaded ms v) = (.ok snap, tr) ∧
      dictGet snap "__state__" = some "loaded" ∧
      dictGet (nonTagEntries snap) "__state__" = none ∧
      paramValue (tearDownRestore m ms snap (mkLoaded ms v)).1 "__state__" =
        some (ms.defaults "__state__") ∧
      (v "__state__" ≠ ms.defaults "__state__" →
        paramValue (tearDownRestore m ms snap (mkLoaded ms v)).1 "__state__" ≠
          paramValue (mkLoaded ms v) "__state__") := by
  obtain ⟨ns1, ns2, hdecomp⟩ := List.append_of_mem htag
  have hmid : ("__state__" :: (ns1 ++ ns2)).Nodup :=
    List.nodup_middle.mp (hdecomp ▸ hnd)
  have htagnotin : "__state__" ∉ ns1 ++ ns2 := (List.nodup_cons.mp hmid).1
  have hfresh1 : ∀ kv ∈ ns1.map (fun n => (n, v n)), kv.1 ≠ "__state__" := by
    intro kv hkv
    obtain ⟨n, hn2, hkveq⟩ := List.mem_map.mp hkv
    subst hkveq
    intro hcontra
    exact htagnotin ((show n = "__state__" from hcontra) ▸
      List.mem_append.mpr (Or.inl hn2))
  have hfresh2 : ∀ kv ∈ ns2.map (fun n => (n, v n)), kv.1 ≠ "__state__" := by
    intro kv hkv
    obtain ⟨n, hn2, hkveq⟩ := List.mem_map.mp hkv
    subst hkveq
    intro hcontra
    exact htagnotin ((show n = "__state__" from hcontra) ▸
      List.mem_append.mpr (Or.inr hn2))
  have hmapsplit : ms.paramNames.map (fun n => (n, v n))
      = ns1.map (fun n => (n, v n)) ++ ("__state__", v "__state__")
        :: ns2.map (fun n => (n, v n)) := by
    rw [hdecomp]
    simp
  have hsnap : dictInsert (ms.paramNames.map (fun n => (n, v n))) "__state__" "loaded"
      = ns1.map (fun n => (n, v n)) ++ ("__state__", "loaded")
        :: ns2.map (fun n => (n, v n)) := by
    rw [hmapsplit]
    exact dictInsert_append_found _ _ _ _ _ hfresh1
  have hnamesmem : ∀ n, n ∈ ns1 ++ ns2 → n ∈ ms.paramNames := by
    intro n hn2
    rw [hdecomp]
    rcases List.mem_append.mp hn2 with h1 | h2
    · exact List.mem_append.mpr (Or.inl h1)
    · exact List.mem_append.mpr (Or.inr (List.mem_cons.mpr (Or.inr h2)))
  have htagget : dictGet
      (ns1.map (fun n => (n, v n)) ++ ("__state__", "loaded")
        :: ns2.map (fun n => (n, v n))) "__state__" = some "loaded" := by
    rw [dictGet_append_fresh _ _ _ hfresh1]
    simp [dictGet]
  have hnte : nonTagEntries
      (ns1.map (fun n => (n, v n)) ++ ("__state__", "loaded")
        :: ns2.map (fun n => (n, v n)))
      = ns1.map (fun n => (n, v n)) ++ ns2.map (fun n => (n, v n)) :=
    nonTag_middle _ _ _ hfresh1 hfresh2
  have hnone : dictGet
      (ns1.map (fun n => (n, v n)) ++ ns2.map (fun n => (n, v n))) "__state__"
      = none := by
    apply dictGet_eq_none_of_fresh
    intro kv hkv
    rcases List.mem_append.mp hkv with h1 | h2
    · exact hfresh1 kv h1
    · exact hfresh2 kv h2
  have hn0mem : n0 ∈ ns1 ++ ns2 := by
    have hn0d : n0 ∈ ns1 ++ "__state__" :: ns2 := hdecomp ▸ hn0
    rcases List.mem_append.mp hn0d with h1 | h2
    · exact List.mem_append.mpr (Or.inl h1)
    · rcases List.mem_cons.mp h2 with h3 | h4
      · exact absurd h3 hn0ne
      · exact List.mem_append.mpr (Or.inr h4)
  have hentsmap : ns1.map (fun n => (n, v n)) ++ ns2.map (fun n => (n, v n))
      = (ns1 ++ ns2).map (fun n => (n, v n)) := (List.map_append _ _ _).symm
  have hne2 : ns1.map (fun n => (n, v n)) ++ ns2.map (fun n => (n, v n)) ≠ [] := by
    rw [hentsmap]
    exact List.ne_nil_of_mem (List.mem_map_of_mem _ hn0mem)
  have hrestored := tearDownRestore_loaded m ms
    (ns1.map (fun n => (n, v n)) ++ ("__state__", "loaded")
      :: ns2.map (fun n => (n, v n)))
    (ns1.map (fun n => (n, v n)) ++ ns2.map (fun n => (n, v n)))
    (mkLoaded ms v) htagget hnte hne2 hm
    (by
      intro kv hkv
      rw [hentsmap] at hkv
      obtain ⟨n, hn2, hkveq⟩ := List.mem_map.mp hkv
      subst hkveq
      exact hn n (hnamesmem n hn2))
    (by
      intro kv hkv
      rw [hentsmap] at hkv
      obtain ⟨n, hn2, hkveq⟩ := List.mem_map.mp hkv
      subst hkveq
      exact hv n (hnamesmem n hn2))
  have hlookup : lookupArg
      (ns1.map (fun n => (n, v n)) ++ ns2.map (fun n => (n, v n)))
      "__state__" (ms.defaults "__state__") = ms.defaults "__state__" := by
    apply lookupArg_fresh
    intro kv hkv
    rcases List.mem_append.mp hkv with h1 | h2
    · exact hfresh1 kv h1
    · exact hfresh2 kv h2
  have hfinal : paramValue
      (tearDownRestore m ms
        (ns1.map (fun n => (n, v n)) ++ ("__state__", "loaded")
          :: ns2.map (fun n => (n, v n)))
        (mkLoaded ms v)).1 "__state__" = some (ms.defaults "__state__") := by
    rw [hrestored]
    simp only [paramValue, stateEntries]
    rw [show materialize ms
        (ns1.map (fun n => (n, v n)) ++ ns2.map (fun n => (n, v n)))
        = ms.paramNames.map (fun n => goodFile n
            (lookupArg (ns1.map (fun n => (n, v n)) ++ ns2.map (fun n => (n, v n)))
              n (ms.defaults n))) from rfl]
    rw [find_goodFile_map _ ms.paramNames "__state__" htag]
    simp [goodFile, hlookup]
  have horig : paramValue (mkLoaded ms v) "__state__" = some (v "__state__") := by
    simp only [paramValue, mkLoaded, stateEntries]
    rw [find_goodFile_map v ms.paramNames "__state__" htag]
    simp [goodFile]
  refine ⟨_, _, capture_mkLoaded ms v hnd hv, ?_, ?_, ?_, ?_⟩ <;> rw [hsnap]
  · exact htagget
  · rw [hnte]
    exact hnone
  · exact hfinal
  · intro hdef
    rw [hfinal, horig]
    intro hcontra
    exact hdef (Option.some.inj hcontra).symm

/-- C10 witness: the concrete module with parameters `__state__` (current
value "0", default "1") and `npt`. -/
theorem c10_state_tag_collision_witness :
    ∃ snap tr, capture_kvm_module_state (mkLoaded cexSpec cexVals) = (.ok snap, tr) ∧
      dictGet snap "__state__" = some "loaded" ∧
      dictGet (nonTagEntries snap) "__state__" = none ∧
      paramValue (tearDownRestore "kvm_amd" cexSpec snap (mkLoaded cexSpec cexVals)).1
        "__state__" = some (cexSpec.defaults "__state__") ∧
      (cexVals "__state__" ≠ cexSpec.defaults "__state__" →
        paramValue (tearDownRestore "kvm_amd" cexSpec snap
            (mkLoaded cexSpec cexVals)).1 "__state__" ≠
          paramValue (mkLoaded cexSpec cexVals) "__state__") :=
  c10_state_tag_collision "kvm_amd" cexSpec cexVals "npt"
    (by decide) (by decide) (by decide) (by decide) (by decide)
    (by decide) (by decide)

/-! ## Claim C1: restore runs on every exit path -/

theorem unload_no_captured (m : String) (kst : KernelState) (s : Dict) :
    Action.captured s ∉ (unload_module m kst).2 := by
  cases kst <;> simp [unload_module]

theorem load_no_captured (ms : ModuleSpec) (cmd : String) (s : Dict) :
    Action.captured s ∉ (load_module ms cmd).2 := by
  simp [load_module]

theorem capture_trace_no_captured (kst : KernelState) (s : Dict) :
    Action.captured s ∉ (capture_kvm_module_state kst).2 := by
  cases kst with
  | unloaded => simp [capture_kvm_module_state, module_is_loaded]
  | loaded dir =>
    simp only [capture_kvm_module_state, module_is_loaded, if_true]
    split <;> simp

theorem configure_no_captured (env : Env) (m : String) (kst : KernelState)
    (tests : String) (s : Dict) :
    Action.captured s ∉ (configure_kvm_module env m kst tests).2.2 := by
  unfold configure_kvm_module
  rcases env.mode with _ | md
  · cases kst <;> simp [module_is_loaded, load_module]
  · cases kst <;>
      (repeat' (first
        | split
        | simp_all [module_is_loaded, unload_module, load_module]))

theorem check_no_captured (env : Env) (m : String) (kst : KernelState)
    (tests : String) (s : Dict) :
    Action.captured s ∉ (check_and_configure env m kst tests).2.2 := by
  unfold check_and_configure
  cases env.configStatus with
  | notSet => simp
  | module => exact configure_no_captured env m kst tests s
  | builtin =>
    rcases env.mode with _ | md
    · simp
    · repeat' split <;> simp_all

theorem testModel_trace (env : Env) (rs : RunState) : (testModel env rs).2 = [] := by
  unfold testModel
  repeat' split <;> simp

theorem tearDown_no_captured (m : String) (ms : ModuleSpec) (snap : Dict)
    (kst : KernelState) (s : Dict) :
    Action.captured s ∉ (tearDownRestore m ms snap kst).2 := by
  unfold tearDownRestore
  cases kst <;>
    (repeat' (first | split | simp_all [unload_module, load_module]))

/-- Whenever the setup phase records a captured-snapshot event, the
harness's stored `initial_kvm_params` is exactly that snapshot. -/
theorem setUp_captured (env : Env) (s : Dict) (r : StepResult Unit)
    (rs : RunState) (a : List Action)
    (h : setUpModel env = (r, rs, a)) (hs : Action.captured s ∈ a) :
    rs.initialParams = s := by
  unfold setUpModel at h
  split at h
  · cases h; simp at hs
  · split at h
    · cases h; simp at hs
    · split at h
      · cases h; simp at hs
      · rename_i m cfg heqd
        split at h
        · rename_i e a1 heqc
          cases h
          exact absurd hs (by
            have := capture_trace_no_captured env.kst0 s
            rw [heqc] at this
            simpa using this)
        · rename_i e a1 heqc
          cases h
          exact absurd hs (by
            have := capture_trace_no_captured env.kst0 s
            rw [heqc] at this
            simpa using this)
        · rename_i snap a1 heqc
          split at h
          · rename_i e kst2 a2 heqcc
            cases h
            rcases List.mem_append.mp hs with h1 | h2
            · rcases List.mem_append.mp h1 with h3 | h4
              · exact absurd h3 (by
                  have := capture_trace_no_captured env.kst0 s
                  rw [heqc] at this
                  simpa using this)
              · simp at h4
                rw [h4]
            · exact absurd h2 (by
                have := check_no_captured env m env.kst0 env.tests0 s
                rw [heqcc] at this
                simpa using this)
          · rename_i e kst2 a2 heqcc
            cases h
            rcases List.mem_append.mp hs with h1 | h2
            · rcases List.mem_append.mp h1 with h3 | h4
              · exact absurd h3 (by
                  have := capture_trace_no_captured env.kst0 s
                  rw [heqc] at this
                  simpa using this)
              · simp at h4
                rw [h4]
            · exact absurd h2 (by
                have := check_no_captured env m env.kst0 env.tests0 s
                rw [heqcc] at this
                simpa using this)
          · rename_i tests2 kst2 a2 heqcc
            have hmem : Action.captured s ∈ (a1 ++ [Action.captured snap]) ++ a2 →
                rs.initialParams = s → rs.initialParams = s := fun _ x => x
            split at h
            · cases h
              rcases List.mem_append.mp hs with h1 | h2
              · rcases List.mem_append.mp h1 with h3 | h4
                · exact absurd h3 (by
                    have := capture_trace_no_captured env.kst0 s
                    rw [heqc] at this
                    simpa using this)
                · simp at h4
                  rw [h4]
                  split <;> rfl
              · exact absurd h2 (by
                  have := check_no_captured env m env.kst0 env.tests0 s
                  rw [heqcc] at this
                  simpa using this)
            · cases h
              rcases List.mem_append.mp hs with h1 | h2
              · rcases List.mem_append.mp h1 with h3 | h4
                · exact absurd h3 (by
                    have := capture_trace_no_captured env.kst0 s
                    rw [heqc] at this
                    simpa using this)
                · simp at h4
                  rw [h4]
              · exact absurd h2 (by
                  have := check_no_captured env m env.kst0 env.tests0 s
                  rw [heqcc] at this
                  simpa using this)

/-- C1: in every run in which the module-state snapshot was captured (the
trace records the capture event with snapshot `s`), the restore step is
invoked with that same snapshot — the trace records the restore invocation
with `s` — on every exit path: normal completion, cancellation during
configuration or verification, and test-execution failure alike. -/
theorem c1_restore_on_every_exit_path (env : Env) (s : Dict)
    (h : Action.captured s ∈ (fullRun env).trace) :
    Action.restoreCall s ∈ (fullRun env).trace := by
  rcases hsu : setUpModel env with ⟨r, rs, a1⟩
  have hcap : Action.captured s ∈ a1 → rs.initialParams = s :=
    setUp_captured env s r rs a1 hsu
  cases r with
  | ok u =>
    unfold fullRun at h ⊢
    rw [hsu] at h ⊢
    simp only [testModel_trace, tearDownModel, List.append_nil] at h ⊢
    rcases List.mem_append.mp h with h1 | h2
    · have hinit := hcap h1
      subst hinit
      exact List.mem_append.mpr (Or.inr (List.mem_cons_self _ _))
    · rcases List.mem_cons.mp h2 with h3 | h4
      · simp at h3
      · exact absurd h4
          (tearDown_no_captured rs.kvmModule env.mspec rs.initialParams rs.kst s)
  | cancel msg =>
    unfold fullRun at h ⊢
    rw [hsu] at h ⊢
    simp only [tearDownModel] at h ⊢
    rcases List.mem_append.mp h with h1 | h2
    · have hinit := hcap h1
      subst hinit
      exact List.mem_append.mpr (Or.inr (List.mem_cons_self _ _))
    · rcases List.mem_cons.mp h2 with h3 | h4
      · simp at h3
      · exact absurd h4
          (tearDown_no_captured rs.kvmModule env.mspec rs.initialParams rs.kst s)
  | error msg =>
    unfold fullRun at h ⊢
    rw [hsu] at h ⊢
    simp only [tearDownModel] at h ⊢
    rcases List.mem_append.mp h with h1 | h2
    · have hinit := hcap h1
      subst hinit
      exact List.mem_append.mpr (Or.inr (List.mem_cons_self _ _))
    · rcases List.mem_cons.mp h2 with h3 | h4
      · simp at h3
      · exact absurd h4
          (tearDown_no_captured rs.kvmModule env.mspec rs.initialParams rs.kst s)

/-- C1 witness: in the concrete healthy run the snapshot of the loaded
module is captured and the restore invocation with that same snapshot
appears in the trace. -/
theorem c1_restore_on_every_exit_path_witness :
    Action.restoreCall [("avic", "1"), ("__state__", "loaded")] ∈
      (fullRun envHealthy).trace :=
  c1_restore_on_every_exit_path envHealthy [("avic", "1"), ("__state__", "loaded")]
    (by decide)

end KvmUnitTest
